import Mathlib

/-!
Verification of the epidemic-simulation repository (population centres,
sub-populations, daily interaction/heal/kill/log cycle, demographic input
filtering).  The `PopulationCentreBase` operations are translated from
`tools/simulation/population_centre.py`; the demographic filter from
`tools/input_data.py`.  The sub-population engine (`PopulationBase`, file
`tools/simulation/population.py`) is not part of the provided sources, so its
operations are modelled from the specification text; each such definition
carries a doc comment saying so.  Randomness is embedded by passing the
realized random draws explicitly as oracle functions.
-/

namespace CoronaSim

/-! ## List infrastructure -/

/-- Map with the element's position, starting the position counter at `s`. -/
def imap (f : Nat → α → β) : Nat → List α → List β
  | _, [] => []
  | i, a :: as => f i a :: imap f (i + 1) as

/-- Maximum of a list of naturals (`numpy.ndarray.max`, with 0 for empty). -/
def listMax (m : List Nat) : Nat := m.foldr max 0

/-- Monotonicity predicate for the logged metric series. -/
def monoList : List Nat → Prop
  | [] => True
  | [_] => True
  | a :: b :: rest => a ≤ b ∧ monoList (b :: rest)

/-- Every entry of the list is at most `m`; used for the last logged row. -/
def lastBound : List Nat → Nat → Prop
  | [], _ => True
  | [a], m => a ≤ m
  | _ :: b :: rest, m => lastBound (b :: rest) m

/-! ## Health states, virus, individuals (modelled from the spec) -/

/-- Modelled from the spec: the `HealthState` enumeration
{Unaffected, Infected, Immune, Dead} of `tools/simulation/population.py`,
which is absent from the provided sources. -/
inductive HealthState where
  | unaffected
  | infected
  | immune
  | dead
deriving DecidableEq

/-- Modelled from the spec: the immutable parameter holder `Virus` of
`tools/simulation/virus.py`, absent from the provided sources.  Real-valued
parameters are embedded as rationals. -/
structure Virus where
  transmissionProbability : ℚ
  illnessDaysMean : ℚ
  illnessDaysStd : ℚ
  mortality : ℚ
deriving DecidableEq

/-- Modelled from the spec: the per-individual state of
`tools/simulation/population.py` — health state, elapsed days since infection
onset, the latent illness-resolution day sampled at infection time, and the
severity flag. -/
structure Individual where
  health : HealthState
  daysInfected : Nat
  resolutionDay : Nat
  severe : Bool
deriving DecidableEq

/-- Modelled from the spec: a `PopulationBase` is an ordered fixed-size
collection of individuals plus the day's new-case accumulator.  (The virus
reference and configured interaction means only parameterize the random draws,
which this embedding passes in explicitly as oracles, so they are not stored.) -/
structure PopulationBase where
  individuals : List Individual
  newCases : Nat
deriving DecidableEq

/-- Modelled from the spec: the `PopulationBase(size, virus)` constructor —
a population of `n` individuals, all Unaffected. -/
def mkPopulation (n : Nat) : PopulationBase :=
  ⟨List.replicate n ⟨HealthState.unaffected, 0, 0, false⟩, 0⟩

/-- Truncation of a (nonnegative) rational to a natural number; embeds the
`int(...)` coercion Python applies to float infection requests. -/
def floorNatQ (q : ℚ) : Nat := (⌊q⌋).toNat

def PopulationBase.unaffectedCount (p : PopulationBase) : Nat :=
  p.individuals.countP (fun a => decide (a.health = HealthState.unaffected))

/-- Transition the first `k` Unaffected individuals (in collection order) to
Infected, with onset now (elapsed days 0) and resolution day / severity taken
from the oracle streams `res`, `sev` at the individual's position. -/
def markFirstInfected (res : Nat → Nat) (sev : Nat → Bool) :
    Nat → Nat → List Individual → List Individual
  | _, _, [] => []
  | k, pos, a :: rest =>
    if a.health = HealthState.unaffected then
      match k with
      | 0 => a :: rest
      | Nat.succ k' =>
        ⟨HealthState.infected, 0, res pos, sev pos⟩ ::
          markFirstInfected res sev k' (pos + 1) rest
    else
      a :: markFirstInfected res sev k (pos + 1) rest

/-- Modelled from the spec: `PopulationBase.infect(n, random_seed)` — selects
`min(n, count(Unaffected))` Unaffected individuals (the spec's uniformly random
choice is realized as taking the first ones in collection order; the seed
argument only influences which individuals are picked, which no claim observes,
so it is kept for the call shape but unused), transitions them to Infected and
adds the number actually infected to the day's new-case counter.  The request
arrives as a float from the centre and is truncated to an integer. -/
def PopulationBase.infect (res : Nat → Nat) (sev : Nat → Bool)
    (p : PopulationBase) (n : ℚ) (_randomSeed : Option Nat) : PopulationBase :=
  ⟨markFirstInfected res sev (min (floorNatQ n) p.unaffectedCount) 0 p.individuals,
   p.newCases + min (floorNatQ n) p.unaffectedCount⟩

/-- Modelled from the spec: `heal()` — every Infected individual whose elapsed
days reach the sampled resolution day resolves; those whose mortality draw
(oracle `die`, indexed by position) is false become Immune. -/
def PopulationBase.heal (die : Nat → Bool) (p : PopulationBase) : PopulationBase :=
  ⟨imap (fun i a =>
      if a.health = HealthState.infected ∧ a.resolutionDay ≤ a.daysInfected ∧
          die i = false then
        { a with health := HealthState.immune }
      else a) 0 p.individuals,
   p.newCases⟩

/-- Modelled from the spec: `kill()` — every Infected individual whose elapsed
days reach the sampled resolution day and whose mortality draw is true becomes
Dead.  Sharing the draw `die` with `heal` realizes the spec's exactly-once
partition of the resolving cohort. -/
def PopulationBase.kill (die : Nat → Bool) (p : PopulationBase) : PopulationBase :=
  ⟨imap (fun i a =>
      if a.health = HealthState.infected ∧ a.resolutionDay ≤ a.daysInfected ∧
          die i = true then
        { a with health := HealthState.dead }
      else a) 0 p.individuals,
   p.newCases⟩

/-- Modelled from the spec: `next_day()` — advance the elapsed-day counter of
every Infected individual and reset the day's new-case accumulator. -/
def PopulationBase.nextDay (p : PopulationBase) : PopulationBase :=
  ⟨p.individuals.map (fun a =>
      if a.health = HealthState.infected then
        { a with daysInfected := a.daysInfected + 1 }
      else a),
   0⟩

/-- Modelled from the spec: the boolean is-infected flags of all individuals
in collection order (`get_health_states()` with no subsample). -/
def PopulationBase.healthFlags (p : PopulationBase) : List Bool :=
  p.individuals.map (fun a => decide (a.health = HealthState.infected))

/-- Modelled from the spec: `get_health_states(n, random_seed)` — is-infected
flags of a subsample of `n` individuals (all of them when `n` is omitted); the
seeded random subsample is realized as the prefix of the collection order. -/
def PopulationBase.getHealthStates (p : PopulationBase)
    (n : Option Nat) (_randomSeed : Option Nat) : List Bool :=
  match n with
  | none => p.healthFlags
  | some m => p.healthFlags.take m

/-- Modelled from the spec: `get_stochastic_interaction_multiplicities(n)` —
per-individual ad-hoc contact counts, freshly drawn on every call; the realized
exponential draws are supplied by the oracle `o`. -/
def PopulationBase.stochasticMult (o : Nat → Nat) (p : PopulationBase)
    (n : Option Nat) : List Nat :=
  (List.range (n.getD p.individuals.length)).map o

/-- Modelled from the spec: `get_periodic_interaction_multiplicities(n, seed)`
— per-individual fixed-circle contact counts; identical seed and `n` reproduce
the identical sequence, while an omitted seed draws freshly from the ambient
randomness, supplied here by the oracle `o`.  (Every call reached by the
claims passes `seed = None`, so only the unseeded branch is modelled.) -/
def PopulationBase.periodicMult (o : Nat → Nat) (p : PopulationBase)
    (n : Option Nat) (_randomSeed : Option Nat) : List Nat :=
  (List.range (n.getD p.individuals.length)).map o

def PopulationBase.nUnaffected (p : PopulationBase) : Nat :=
  p.individuals.countP (fun a => decide (a.health = HealthState.unaffected))

def PopulationBase.nInfected (p : PopulationBase) : Nat :=
  p.individuals.countP (fun a => decide (a.health = HealthState.infected))

def PopulationBase.nImmune (p : PopulationBase) : Nat :=
  p.individuals.countP (fun a => decide (a.health = HealthState.immune))

def PopulationBase.nDead (p : PopulationBase) : Nat :=
  p.individuals.countP (fun a => decide (a.health = HealthState.dead))

def PopulationBase.nNewCases (p : PopulationBase) : Nat := p.newCases

def PopulationBase.nHospitalized (p : PopulationBase) : Nat :=
  p.individuals.countP (fun a => decide (a.health = HealthState.infected) && a.severe)

/-! ## The population centre (`tools/simulation/population_centre.py`) -/

/-- Realized random draws consumed by one `infect` call: the resolution-day and
severity samples for the newly infected, indexed by sub-population and
position. -/
structure InfectOracle where
  res : Nat → Nat → Nat
  sev : Nat → Nat → Bool

/-- Realized random draws consumed by one simulated day: stochastic and
periodic interaction multiplicities (sub-population, position), transmission
trials (sub-population, round, position), the two infection calls' samples,
and the mortality draws shared by `heal` and `kill`. -/
structure DayOracle where
  sMult : Nat → Nat → Nat
  sTrial : Nat → Nat → Nat → Bool
  pMult : Nat → Nat → Nat
  pTrial : Nat → Nat → Nat → Bool
  sInf : InfectOracle
  pInf : InfectOracle
  die : Nat → Nat → Bool

/-- State of `PopulationCentreBase` (`tools/simulation/population_centre.py`,
lines 10–46): identity fields, the virus, the owned sub-populations, the fixed
random seed, the size computed at construction, the seven per-day logs and the
day counter. -/
structure PopulationCentreBase where
  longitude : ℚ
  latitude : ℚ
  name : String
  virus : Virus
  populations : List PopulationBase
  randomSeed : Nat
  size : Nat
  simulationDays : List Nat
  infected : List Nat
  unaffected : List Nat
  immune : List Nat
  dead : List Nat
  newCases : List Nat
  hospitalized : List Nat
  dayI : Nat
deriving DecidableEq

/-- The `__init__` constructor: size is the sum of the sub-population sizes,
all logs start empty, the day counter starts at 0. -/
def mkPopulationCentre (longitude latitude : ℚ) (populations : List PopulationBase)
    (virus : Virus) (name : String) (randomSeed : Nat) : PopulationCentreBase :=
  ⟨longitude, latitude, name, virus, populations, randomSeed,
   (populations.map (fun p => p.individuals.length)).sum,
   [], [], [], [], [], [], [], 0⟩

/-- Total current individual count over the sub-populations
(`sum(len(sub) for sub in populations)`). -/
def PopulationCentreBase.popTotal (s : PopulationCentreBase) : Nat :=
  (s.populations.map (fun p => p.individuals.length)).sum

/-- The `infect` method (lines 51–63): each sub-population receives the raw
proportional request `len(population) / len(self) * n_infected` (a float, not
truncated here) together with the seed. -/
def PopulationCentreBase.infect (io : InfectOracle) (s : PopulationCentreBase)
    (nInfected : ℚ) (randomSeed : Option Nat) : PopulationCentreBase :=
  let request : PopulationBase → ℚ := fun p =>
    (p.individuals.length : ℚ) / (s.size : ℚ) * nInfected
  { s with populations := imap
             (fun j p => p.infect (io.res j) (io.sev j) (request p) randomSeed)
             0 s.populations }

/-- The `infect` method with Python's division semantics made explicit: the
loop body divides by `len(self)`, so the first iteration raises
`ZeroDivisionError` when the size is zero — but only if there is an iteration
at all. -/
def PopulationCentreBase.infectChecked (io : InfectOracle) (s : PopulationCentreBase)
    (nInfected : ℚ) (randomSeed : Option Nat) : Except String PopulationCentreBase :=
  if s.populations ≠ [] ∧ s.size = 0 then
    Except.error "ZeroDivisionError: division by zero"
  else
    Except.ok (s.infect io nInfected randomSeed)

/-- One round of a round-based interaction pass (lines 163–168): the
transmission mask keeps position `i` when its multiplicity exceeds the round
index and its trial succeeds; the contribution is the number of masked
positions whose health flag is true. -/
def roundCount (h : List Bool) (m : List Nat) (trial : Nat → Bool) (r : Nat) : Nat :=
  ((List.range m.length).filter
    (fun i => decide (r < m.getD i 0) && trial i && h.getD i false)).length

/-- Sum of the round contributions for rounds `0 … max(multiplicities) - 1`. -/
def interactionTotal (h : List Bool) (m : List Nat) (trial : Nat → Nat → Bool) : Nat :=
  ((List.range (listMax m)).map (fun r => roundCount h m (trial r) r)).sum

/-- The infection count accumulated by `_interact_stochastic` (lines 150–170):
per sub-population, full health flags and freshly drawn stochastic
multiplicities. -/
def PopulationCentreBase.stochTotal (o : DayOracle) (s : PopulationCentreBase) : Nat :=
  (imap (fun j p =>
      interactionTotal p.healthFlags (p.stochasticMult (o.sMult j) none) (o.sTrial j))
    0 s.populations).sum

/-- The `_interact_stochastic` method: accumulate the total and infect with no
seed. -/
def PopulationCentreBase.interactStochastic (o : DayOracle)
    (s : PopulationCentreBase) : PopulationCentreBase :=
  s.infect o.sInf (s.stochTotal o : ℚ) none

/-- The periodic interaction multiplicities drawn by `_interact_periodic`
(line 181): one unseeded `get_periodic_interaction_multiplicities()` call per
sub-population. -/
def PopulationCentreBase.periMults (o : DayOracle) (s : PopulationCentreBase) :
    List (List Nat) :=
  imap (fun j p => p.periodicMult (o.pMult j) none none) 0 s.populations

/-- The infection count accumulated by `_interact_periodic` (lines 172–190):
per sub-population, health states drawn with the centre's fixed seed and
periodic multiplicities drawn with no seed. -/
def PopulationCentreBase.periTotal (o : DayOracle) (s : PopulationCentreBase) : Nat :=
  (imap (fun j p =>
      interactionTotal (p.getHealthStates none (some s.randomSeed))
        (p.periodicMult (o.pMult j) none none) (o.pTrial j))
    0 s.populations).sum

/-- The `_interact_periodic` method: accumulate the total and infect with the
centre's fixed seed. -/
def PopulationCentreBase.interactPeriodic (o : DayOracle)
    (s : PopulationCentreBase) : PopulationCentreBase :=
  s.infect o.pInf (s.periTotal o : ℚ) (some s.randomSeed)

/-- The `_heal` method (lines 217–222): delegate to every sub-population. -/
def PopulationCentreBase.healAll (o : DayOracle) (s : PopulationCentreBase) :
    PopulationCentreBase :=
  { s with populations := imap (fun j p => p.heal (o.die j)) 0 s.populations }

/-- The `_kill` method (lines 224–229): delegate to every sub-population. -/
def PopulationCentreBase.killAll (o : DayOracle) (s : PopulationCentreBase) :
    PopulationCentreBase :=
  { s with populations := imap (fun j p => p.kill (o.die j)) 0 s.populations }

def PopulationCentreBase.sumUnaffected (s : PopulationCentreBase) : Nat :=
  (s.populations.map PopulationBase.nUnaffected).sum

def PopulationCentreBase.sumInfected (s : PopulationCentreBase) : Nat :=
  (s.populations.map PopulationBase.nInfected).sum

def PopulationCentreBase.sumImmune (s : PopulationCentreBase) : Nat :=
  (s.populations.map PopulationBase.nImmune).sum

def PopulationCentreBase.sumDead (s : PopulationCentreBase) : Nat :=
  (s.populations.map PopulationBase.nDead).sum

def PopulationCentreBase.sumNewCases (s : PopulationCentreBase) : Nat :=
  (s.populations.map PopulationBase.nNewCases).sum

def PopulationCentreBase.sumHospitalized (s : PopulationCentreBase) : Nat :=
  (s.populations.map PopulationBase.nHospitalized).sum

/-- The `_log_data` method (lines 192–215): sum each metric over the
sub-populations and append one row, keyed by the current day index. -/
def PopulationCentreBase.logData (s : PopulationCentreBase) : PopulationCentreBase :=
  { s with
    unaffected := s.unaffected ++ [s.sumUnaffected],
    infected := s.infected ++ [s.sumInfected],
    immune := s.immune ++ [s.sumImmune],
    dead := s.dead ++ [s.sumDead],
    newCases := s.newCases ++ [s.sumNewCases],
    hospitalized := s.hospitalized ++ [s.sumHospitalized],
    simulationDays := s.simulationDays ++ [s.dayI] }

/-- The per-sub-population `next_day` loop of `next_day` (lines 243–244). -/
def PopulationCentreBase.popsNextDay (s : PopulationCentreBase) : PopulationCentreBase :=
  { s with populations := s.populations.map PopulationBase.nextDay }

/-- The final `self._day_i += 1` of `next_day` (line 246). -/
def PopulationCentreBase.incDay (s : PopulationCentreBase) : PopulationCentreBase :=
  { s with dayI := s.dayI + 1 }

/-- The `next_day` method (lines 231–246): stochastic interaction, periodic
interaction, heal, kill, log, advance the sub-populations, increment the day
counter — in that order. -/
def PopulationCentreBase.nextDay (o : DayOracle) (s : PopulationCentreBase) :
    PopulationCentreBase :=
  ((((((s.interactStochastic o).interactPeriodic o).healAll o).killAll o
    ).logData).popsNextDay).incDay

/-- A run: fold `next_day` over the list of realized daily draws. -/
def runDays (os : List DayOracle) (s : PopulationCentreBase) : PopulationCentreBase :=
  os.foldl (fun t o => t.nextDay o) s

/-- Result record of `to_dict` (lines 248–261). -/
structure CentreDict where
  name : String
  size : Nat
  longitude : ℚ
  latitude : ℚ
  simulationDays : List Nat
  unaffected : List Nat
  infected : List Nat
  immune : List Nat
  dead : List Nat
  newCases : List Nat
  hospitalized : List Nat
deriving DecidableEq

/-- The `to_dict` method: identity fields plus the per-day arrays. -/
def PopulationCentreBase.toDict (s : PopulationCentreBase) : CentreDict :=
  ⟨s.name, s.size, s.longitude, s.latitude, s.simulationDays,
   s.unaffected, s.infected, s.immune, s.dead, s.newCases, s.hospitalized⟩

/-- Truncated proportional subsample size `int(n * len(population) / len(self))`
used by `get_health_states` and `get_travelling` (lines 86, 128–144). -/
def subSize (n lp size : Nat) : Nat := floorNatQ ((n : ℚ) * (lp : ℚ) / (size : ℚ))

/-- The `get_travelling` method (lines 93–148): concatenated health states and
interaction multiplicities.  With no seed the multiplicities are periodic
(passing the seed along); with a seed they are stochastic (drawn without the
seed). -/
def PopulationCentreBase.getTravelling (oS oP : Nat → Nat → Nat)
    (s : PopulationCentreBase) (n : Option Nat) (randomSeed : Option Nat) :
    List Bool × List Nat :=
  match n with
  | none =>
    ((s.populations.map (fun p => p.getHealthStates none randomSeed)).flatten,
     (imap (fun j p =>
        match randomSeed with
        | none => p.periodicMult (oP j) none randomSeed
        | some _ => p.stochasticMult (oS j) none) 0 s.populations).flatten)
  | some m =>
    ((s.populations.map (fun p =>
        p.getHealthStates (some (subSize m p.individuals.length s.size)) randomSeed)).flatten,
     (imap (fun j p =>
        match randomSeed with
        | none => p.periodicMult (oP j) (some (subSize m p.individuals.length s.size)) randomSeed
        | some _ => p.stochasticMult (oS j) (some (subSize m p.individuals.length s.size)))
       0 s.populations).flatten)

/-! ## Demographic input filtering (`tools/input_data.py`, lines 21–28) -/

/-- One row of the municipal table: the inhabitant count used by the filter
and an abstract payload standing for the remaining columns. -/
structure MunicipalRow where
  popul : Int
  payload : Int
deriving DecidableEq

/-- The boolean mask `inhabitants > min_inhabitants`. -/
def popMask (rows : List MunicipalRow) (minInhabitants : Int) : List Bool :=
  rows.map (fun r => decide (minInhabitants < r.popul))

/-- Boolean-mask selection along a list (pandas `df.loc[mask]`, numpy
`a[mask]` on axis 0): keep the entries at true positions, in order. -/
def maskFilter (mask : List Bool) (xs : List α) : List α :=
  ((mask.zip xs).filter (fun p => p.1)).map (fun p => p.2)

/-- The retained indices: positions of the mask that are true, in order. -/
def maskIndices (mask : List Bool) : List Nat :=
  maskFilter mask (List.range mask.length)

/-- The retained index at position `i` of the kept list, as an index into the
original axis. -/
def keptIdx (mask : List Bool) (i : Fin (maskIndices mask).length) : Fin mask.length :=
  ⟨(maskIndices mask).getD i 0, by
    have hmem : ∀ (l : List Nat) (k : Nat), k < l.length → l.getD k 0 ∈ l := by
      intro l
      induction l with
      | nil => intro k hk; simp at hk
      | cons a as ih =>
        intro k hk
        cases k with
        | zero => exact List.mem_cons_self a as
        | succ k => exact List.mem_cons_of_mem _ (ih k (by simpa using hk))
    have hx := hmem (maskIndices mask) i i.isLt
    unfold maskIndices maskFilter at hx
    simp only [List.mem_map, List.mem_filter] at hx
    rcases hx with ⟨⟨b, t⟩, hm, heq⟩
    have ht : (maskIndices mask).getD i 0 = t := by
      unfold maskIndices maskFilter
      exact heq.symm
    rw [ht]
    exact List.mem_range.mp (List.of_mem_zip hm.1).2⟩

/-- Boolean-mask row selection of a fixed-shape array along axis 0
(`a[mask]`). -/
def rowSelect (mask : List Bool) (M : Fin mask.length → β) :
    Fin (maskIndices mask).length → β :=
  fun i => M (keptIdx mask i)

/-- Transpose of a fixed-shape two-dimensional array (`a.T`). -/
def matTranspose (M : Fin a → Fin b → Int) : Fin b → Fin a → Int :=
  fun i j => M j i

/-- The migration-matrix filter
`matrix[population_size_mask].T[population_size_mask].T`. -/
def filterMigration (mask : List Bool)
    (M : Fin mask.length → Fin mask.length → Int) :
    Fin (maskIndices mask).length → Fin (maskIndices mask).length → Int :=
  matTranspose (rowSelect mask (matTranspose (rowSelect mask M)))

/-! ## The run invariant -/

/-- Invariant holding at every point of a run: the stored size equals the
current total individual count, the logs all have one row per elapsed day,
every logged day's four state counts sum to the size, and the immune and dead
series are monotone with their last entry bounded by the current count. -/
structure Good (s : PopulationCentreBase) : Prop where
  sizeEq : s.size = s.popTotal
  daysEq : s.simulationDays = List.range s.dayI
  lenU : s.unaffected.length = s.dayI
  lenI : s.infected.length = s.dayI
  lenIm : s.immune.length = s.dayI
  lenD : s.dead.length = s.dayI
  lenN : s.newCases.length = s.dayI
  lenH : s.hospitalized.length = s.dayI
  rows : ∀ d, d < s.dayI →
    s.unaffected.getD d 0 + s.infected.getD d 0 + s.immune.getD d 0 +
      s.dead.getD d 0 = s.size
  monoIm : monoList s.immune
  monoD : monoList s.dead
  lastIm : lastBound s.immune s.sumImmune
  lastD : lastBound s.dead s.sumDead

/-! ## Lemmas and claim theorems -/

theorem length_imap (f : Nat → α → β) : ∀ (i : Nat) (l : List α),
    (imap f i l).length = l.length
  | _, [] => rfl
  | i, _ :: as => by simp [imap, length_imap f (i + 1) as]

theorem getD_imap (f : Nat → α → β) : ∀ (i j : Nat) (l : List α)
    (da : α) (db : β), j < l.length →
    (imap f i l).getD j db = f (i + j) (l.getD j da)
  | i, 0, _ :: _, _, _, _ => by simp [imap]
  | i, j + 1, a :: as, da, db, h => by
    have hj : j < as.length := by simpa using h
    have := getD_imap f (i + 1) j as da db hj
    simpa [imap, Nat.add_assoc, Nat.add_comm 1 j] using this

theorem sum_imap (f : Nat → α → Nat) (d : α) : ∀ (l : List α) (i : Nat),
    (imap f i l).sum = ∑ j ∈ Finset.range l.length, f (i + j) (l.getD j d)
  | [], _ => by simp [imap]
  | a :: as, i => by
    rw [imap, List.sum_cons, sum_imap f d as (i + 1)]
    rw [List.length_cons, Finset.sum_range_succ']
    simp [Nat.add_comm, Nat.add_assoc, Nat.add_left_comm]

theorem sum_map_imap_congr (f : Nat → α → α) (g : α → Nat)
    (hfg : ∀ i a, g (f i a) = g a) : ∀ (l : List α) (i : Nat),
    ((imap f i l).map g).sum = (l.map g).sum
  | [], _ => rfl
  | a :: as, i => by
    simp [imap, hfg, sum_map_imap_congr f g hfg as (i + 1)]

theorem sum_map_imap_mono (f : Nat → α → α) (g : α → Nat)
    (hfg : ∀ i a, g a ≤ g (f i a)) : ∀ (l : List α) (i : Nat),
    (l.map g).sum ≤ ((imap f i l).map g).sum
  | [], _ => le_refl _
  | a :: as, i => by
    simp only [imap, List.map_cons, List.sum_cons]
    exact Nat.add_le_add (hfg i a) (sum_map_imap_mono f g hfg as (i + 1))

theorem sum_map_map_congr (f : α → α) (g : α → Nat)
    (hfg : ∀ a, g (f a) = g a) : ∀ (l : List α),
    ((l.map f).map g).sum = (l.map g).sum
  | [] => rfl
  | a :: as => by
    simp only [List.map_cons, List.sum_cons, hfg]
    exact congrArg (g a + ·) (sum_map_map_congr f g hfg as)

theorem countP_imap_congr (f : Nat → α → α) (p : α → Bool)
    (hfp : ∀ i a, p (f i a) = p a) : ∀ (l : List α) (i : Nat),
    (imap f i l).countP p = l.countP p
  | [], _ => rfl
  | a :: as, i => by
    simp [imap, List.countP_cons, hfp, countP_imap_congr f p hfp as (i + 1)]

theorem countP_imap_mono (f : Nat → α → α) (p : α → Bool)
    (hfp : ∀ i a, p a = true → p (f i a) = true) : ∀ (l : List α) (i : Nat),
    l.countP p ≤ (imap f i l).countP p
  | [], _ => le_refl _
  | a :: as, i => by
    simp only [imap, List.countP_cons]
    refine Nat.add_le_add (countP_imap_mono f p hfp as (i + 1)) ?_
    by_cases h : p a = true
    · simp [h, hfp i a h]
    · simp [h]

theorem getD_append_lt (l : List α) (x d : α) :
    ∀ (j : Nat), j < l.length → (l ++ [x]).getD j d = l.getD j d := by
  induction l with
  | nil => intro j h; simp at h
  | cons a as ih =>
    intro j h
    cases j with
    | zero => rfl
    | succ j => simpa using ih j (by simpa using h)

theorem getD_append_self (l : List α) (x d : α) :
    (l ++ [x]).getD l.length d = x := by
  induction l with
  | nil => rfl
  | cons a as ih => simpa using ih

theorem lastBound_mono : ∀ (l : List Nat) (m m' : Nat), m ≤ m' →
    lastBound l m → lastBound l m'
  | [], _, _, _, _ => trivial
  | [a], _, _, h, hb => le_trans hb h
  | _ :: b :: rest, m, m', h, hb => lastBound_mono (b :: rest) m m' h hb

theorem lastBound_append (x m : Nat) : ∀ (l : List Nat), x ≤ m →
    lastBound (l ++ [x]) m
  | [], h => h
  | [_], h => h
  | a :: b :: rest, h => by
    have := lastBound_append x m (b :: rest) h
    simpa [lastBound] using this

theorem monoList_append (x : Nat) : ∀ (l : List Nat), monoList l →
    lastBound l x → monoList (l ++ [x])
  | [], _, _ => trivial
  | [a], _, hb => ⟨hb, trivial⟩
  | a :: b :: rest, hm, hb => by
    refine ⟨hm.1, ?_⟩
    exact monoList_append x (b :: rest) hm.2 hb

theorem monoList_getD : ∀ (l : List Nat), monoList l →
    ∀ (d : Nat), d + 1 < l.length → l.getD d 0 ≤ l.getD (d + 1) 0
  | [], _, d, h => by simp at h
  | [a], _, d, h => by simp at h
  | a :: b :: rest, hm, d, h => by
    cases d with
    | zero => simpa using hm.1
    | succ d =>
      have := monoList_getD (b :: rest) hm.2 d (by simpa using h)
      simpa using this

/-! ## Sub-population operation lemmas -/

theorem length_markFirstInfected (res : Nat → Nat) (sev : Nat → Bool) :
    ∀ (k pos : Nat) (l : List Individual),
    (markFirstInfected res sev k pos l).length = l.length
  | _, _, [] => rfl
  | k, pos, a :: rest => by
    by_cases ha : a.health = HealthState.unaffected
    · cases k with
      | zero => simp [markFirstInfected, ha]
      | succ k' =>
        simp [markFirstInfected, ha,
          length_markFirstInfected res sev k' (pos + 1) rest]
    · simp [markFirstInfected, ha,
        length_markFirstInfected res sev k (pos + 1) rest]

theorem countP_markFirstInfected (res : Nat → Nat) (sev : Nat → Bool)
    (pb : Individual → Bool)
    (h1 : ∀ a : Individual, a.health = HealthState.unaffected → pb a = false)
    (h2 : ∀ pos, pb ⟨HealthState.infected, 0, res pos, sev pos⟩ = false) :
    ∀ (k pos : Nat) (l : List Individual),
    (markFirstInfected res sev k pos l).countP pb = l.countP pb
  | _, _, [] => rfl
  | k, pos, a :: rest => by
    by_cases ha : a.health = HealthState.unaffected
    · cases k with
      | zero => simp [markFirstInfected, ha]
      | succ k' =>
        simp [markFirstInfected, ha, List.countP_cons, h1 a ha, h2 pos,
          countP_markFirstInfected res sev pb h1 h2 k' (pos + 1) rest]
    · simp [markFirstInfected, ha, List.countP_cons,
        countP_markFirstInfected res sev pb h1 h2 k (pos + 1) rest]

theorem length_infect (res : Nat → Nat) (sev : Nat → Bool) (p : PopulationBase)
    (n : ℚ) (seed : Option Nat) :
    (p.infect res sev n seed).individuals.length = p.individuals.length := by
  simp [PopulationBase.infect, length_markFirstInfected]

theorem nImmune_infect (res : Nat → Nat) (sev : Nat → Bool) (p : PopulationBase)
    (n : ℚ) (seed : Option Nat) :
    (p.infect res sev n seed).nImmune = p.nImmune := by
  unfold PopulationBase.infect PopulationBase.nImmune
  exact countP_markFirstInfected res sev _ (fun a ha => by simp [ha]) (fun pos => by simp) _ _ _

theorem nDead_infect (res : Nat → Nat) (sev : Nat → Bool) (p : PopulationBase)
    (n : ℚ) (seed : Option Nat) :
    (p.infect res sev n seed).nDead = p.nDead := by
  unfold PopulationBase.infect PopulationBase.nDead
  exact countP_markFirstInfected res sev _ (fun a ha => by simp [ha]) (fun pos => by simp) _ _ _

theorem newCases_infect (res : Nat → Nat) (sev : Nat → Bool) (p : PopulationBase)
    (n : ℚ) (seed : Option Nat) :
    (p.infect res sev n seed).newCases
      = p.newCases + min (floorNatQ n) p.unaffectedCount := rfl

theorem length_heal (die : Nat → Bool) (p : PopulationBase) :
    (p.heal die).individuals.length = p.individuals.length := by
  simp [PopulationBase.heal, length_imap]

theorem length_kill (die : Nat → Bool) (p : PopulationBase) :
    (p.kill die).individuals.length = p.individuals.length := by
  simp [PopulationBase.kill, length_imap]

theorem length_popNextDay (p : PopulationBase) :
    p.nextDay.individuals.length = p.individuals.length := by
  simp [PopulationBase.nextDay]

theorem nImmune_heal_le (die : Nat → Bool) (p : PopulationBase) :
    p.nImmune ≤ (p.heal die).nImmune := by
  unfold PopulationBase.heal PopulationBase.nImmune
  apply countP_imap_mono
  intro i a h
  have ha : a.health = HealthState.immune := of_decide_eq_true h
  simp [ha]

theorem nDead_heal (die : Nat → Bool) (p : PopulationBase) :
    (p.heal die).nDead = p.nDead := by
  unfold PopulationBase.heal PopulationBase.nDead
  apply countP_imap_congr
  intro i a
  by_cases hc : a.health = HealthState.infected ∧ a.resolutionDay ≤ a.daysInfected ∧
      die i = false
  · simp [hc, hc.1]
  · simp [hc]

theorem nImmune_kill (die : Nat → Bool) (p : PopulationBase) :
    (p.kill die).nImmune = p.nImmune := by
  unfold PopulationBase.kill PopulationBase.nImmune
  apply countP_imap_congr
  intro i a
  by_cases hc : a.health = HealthState.infected ∧ a.resolutionDay ≤ a.daysInfected ∧
      die i = true
  · simp [hc, hc.1]
  · simp [hc]

theorem nDead_kill_le (die : Nat → Bool) (p : PopulationBase) :
    p.nDead ≤ (p.kill die).nDead := by
  unfold PopulationBase.kill PopulationBase.nDead
  apply countP_imap_mono
  intro i a h
  have ha : a.health = HealthState.dead := of_decide_eq_true h
  simp [ha]

theorem nImmune_popNextDay (p : PopulationBase) :
    p.nextDay.nImmune = p.nImmune := by
  unfold PopulationBase.nextDay PopulationBase.nImmune
  rw [List.countP_map]
  apply List.countP_congr
  intro a _
  by_cases ha : a.health = HealthState.infected <;> simp [Function.comp, ha]

theorem nDead_popNextDay (p : PopulationBase) :
    p.nextDay.nDead = p.nDead := by
  unfold PopulationBase.nextDay PopulationBase.nDead
  rw [List.countP_map]
  apply List.countP_congr
  intro a _
  by_cases ha : a.health = HealthState.infected <;> simp [Function.comp, ha]

/-- One individual is in exactly one of the four health states, so the four
counts always sum to the collection size. -/
theorem countFour : ∀ l : List Individual,
    l.countP (fun a => decide (a.health = HealthState.unaffected)) +
    l.countP (fun a => decide (a.health = HealthState.infected)) +
    l.countP (fun a => decide (a.health = HealthState.immune)) +
    l.countP (fun a => decide (a.health = HealthState.dead)) = l.length
  | [] => rfl
  | a :: rest => by
    have ih := countFour rest
    rcases ha : a.health <;> simp [List.countP_cons, ha] <;> omega

theorem pop_partition (p : PopulationBase) :
    p.nUnaffected + p.nInfected + p.nImmune + p.nDead = p.individuals.length :=
  countFour p.individuals

/-! ## Population-centre step lemmas -/

theorem popTotal_infect (io : InfectOracle) (s : PopulationCentreBase)
    (n : ℚ) (seed : Option Nat) : (s.infect io n seed).popTotal = s.popTotal := by
  simp only [PopulationCentreBase.infect, PopulationCentreBase.popTotal]
  apply sum_map_imap_congr
  intro j p
  exact length_infect _ _ p _ _

theorem sumImmune_infect (io : InfectOracle) (s : PopulationCentreBase)
    (n : ℚ) (seed : Option Nat) : (s.infect io n seed).sumImmune = s.sumImmune := by
  simp only [PopulationCentreBase.infect, PopulationCentreBase.sumImmune]
  apply sum_map_imap_congr
  intro j p
  exact nImmune_infect _ _ p _ _

theorem sumDead_infect (io : InfectOracle) (s : PopulationCentreBase)
    (n : ℚ) (seed : Option Nat) : (s.infect io n seed).sumDead = s.sumDead := by
  simp only [PopulationCentreBase.infect, PopulationCentreBase.sumDead]
  apply sum_map_imap_congr
  intro j p
  exact nDead_infect _ _ p _ _

theorem popTotal_healAll (o : DayOracle) (s : PopulationCentreBase) :
    (s.healAll o).popTotal = s.popTotal := by
  simp only [PopulationCentreBase.healAll, PopulationCentreBase.popTotal]
  apply sum_map_imap_congr
  intro j p
  exact length_heal _ p

theorem popTotal_killAll (o : DayOracle) (s : PopulationCentreBase) :
    (s.killAll o).popTotal = s.popTotal := by
  simp only [PopulationCentreBase.killAll, PopulationCentreBase.popTotal]
  apply sum_map_imap_congr
  intro j p
  exact length_kill _ p

theorem popTotal_popsNextDay (s : PopulationCentreBase) :
    s.popsNextDay.popTotal = s.popTotal := by
  simp only [PopulationCentreBase.popsNextDay, PopulationCentreBase.popTotal]
  apply sum_map_map_congr
  intro p
  exact length_popNextDay p

theorem sumImmune_healAll_le (o : DayOracle) (s : PopulationCentreBase) :
    s.sumImmune ≤ (s.healAll o).sumImmune := by
  simp only [PopulationCentreBase.healAll, PopulationCentreBase.sumImmune]
  apply sum_map_imap_mono
  intro j p
  exact nImmune_heal_le _ p

theorem sumImmune_killAll (o : DayOracle) (s : PopulationCentreBase) :
    (s.killAll o).sumImmune = s.sumImmune := by
  simp only [PopulationCentreBase.killAll, PopulationCentreBase.sumImmune]
  apply sum_map_imap_congr
  intro j p
  exact nImmune_kill _ p

theorem sumDead_healAll (o : DayOracle) (s : PopulationCentreBase) :
    (s.healAll o).sumDead = s.sumDead := by
  simp only [PopulationCentreBase.healAll, PopulationCentreBase.sumDead]
  apply sum_map_imap_congr
  intro j p
  exact nDead_heal _ p

theorem sumDead_killAll_le (o : DayOracle) (s : PopulationCentreBase) :
    s.sumDead ≤ (s.killAll o).sumDead := by
  simp only [PopulationCentreBase.killAll, PopulationCentreBase.sumDead]
  apply sum_map_imap_mono
  intro j p
  exact nDead_kill_le _ p

theorem sumImmune_popsNextDay (s : PopulationCentreBase) :
    s.popsNextDay.sumImmune = s.sumImmune := by
  simp only [PopulationCentreBase.popsNextDay, PopulationCentreBase.sumImmune]
  apply sum_map_map_congr
  intro p
  exact nImmune_popNextDay p

theorem sumDead_popsNextDay (s : PopulationCentreBase) :
    s.popsNextDay.sumDead = s.sumDead := by
  simp only [PopulationCentreBase.popsNextDay, PopulationCentreBase.sumDead]
  apply sum_map_map_congr
  intro p
  exact nDead_popNextDay p

/-- The four state sums over a population centre always add up to the total
individual count. -/
theorem centre_partition (s : PopulationCentreBase) :
    s.sumUnaffected + s.sumInfected + s.sumImmune + s.sumDead = s.popTotal := by
  unfold PopulationCentreBase.sumUnaffected PopulationCentreBase.sumInfected
    PopulationCentreBase.sumImmune PopulationCentreBase.sumDead
    PopulationCentreBase.popTotal
  induction s.populations with
  | nil => rfl
  | cons p rest ih =>
    simp only [List.map_cons, List.sum_cons]
    have := pop_partition p
    omega

theorem good_mk (lon lat : ℚ) (pops : List PopulationBase) (v : Virus)
    (nm : String) (seed : Nat) : Good (mkPopulationCentre lon lat pops v nm seed) := by
  refine ⟨rfl, rfl, rfl, rfl, rfl, rfl, rfl, rfl, ?_, trivial, trivial, trivial, trivial⟩
  intro d hd
  simp [mkPopulationCentre] at hd

theorem good_infect (io : InfectOracle) (s : PopulationCentreBase) (n : ℚ)
    (seed : Option Nat) (hg : Good s) : Good (s.infect io n seed) := by
  have hTot : (s.infect io n seed).popTotal = s.popTotal := popTotal_infect io s n seed
  have hIm : (s.infect io n seed).sumImmune = s.sumImmune := sumImmune_infect io s n seed
  have hD : (s.infect io n seed).sumDead = s.sumDead := sumDead_infect io s n seed
  exact ⟨by rw [hTot]; exact hg.sizeEq, hg.daysEq, hg.lenU, hg.lenI, hg.lenIm,
    hg.lenD, hg.lenN, hg.lenH, hg.rows, hg.monoIm, hg.monoD,
    by rw [hIm]; exact hg.lastIm, by rw [hD]; exact hg.lastD⟩

theorem popTotal_interactStochastic (o : DayOracle) (s : PopulationCentreBase) :
    (s.interactStochastic o).popTotal = s.popTotal := popTotal_infect _ _ _ _

theorem popTotal_interactPeriodic (o : DayOracle) (s : PopulationCentreBase) :
    (s.interactPeriodic o).popTotal = s.popTotal := popTotal_infect _ _ _ _

theorem sumImmune_interactStochastic (o : DayOracle) (s : PopulationCentreBase) :
    (s.interactStochastic o).sumImmune = s.sumImmune := sumImmune_infect _ _ _ _

theorem sumImmune_interactPeriodic (o : DayOracle) (s : PopulationCentreBase) :
    (s.interactPeriodic o).sumImmune = s.sumImmune := sumImmune_infect _ _ _ _

theorem sumDead_interactStochastic (o : DayOracle) (s : PopulationCentreBase) :
    (s.interactStochastic o).sumDead = s.sumDead := sumDead_infect _ _ _ _

theorem sumDead_interactPeriodic (o : DayOracle) (s : PopulationCentreBase) :
    (s.interactPeriodic o).sumDead = s.sumDead := sumDead_infect _ _ _ _

set_option maxHeartbeats 2000000 in
theorem good_nextDay (o : DayOracle) (s : PopulationCentreBase) (hg : Good s) :
    Good (s.nextDay o) := by
  have hTot4 : ((((s.interactStochastic o).interactPeriodic o).healAll o).killAll
      o).popTotal = s.popTotal := by
    rw [popTotal_killAll, popTotal_healAll, popTotal_interactPeriodic,
      popTotal_interactStochastic]
  have hImLe : s.sumImmune ≤ ((((s.interactStochastic o).interactPeriodic
      o).healAll o).killAll o).sumImmune := by
    rw [sumImmune_killAll]
    calc s.sumImmune
        = ((s.interactStochastic o).interactPeriodic o).sumImmune := by
          rw [sumImmune_interactPeriodic, sumImmune_interactStochastic]
      _ ≤ _ := sumImmune_healAll_le _ _
  have hDLe : s.sumDead ≤ ((((s.interactStochastic o).interactPeriodic
      o).healAll o).killAll o).sumDead := by
    calc s.sumDead
        = (((s.interactStochastic o).interactPeriodic o).healAll o).sumDead := by
          rw [sumDead_healAll, sumDead_interactPeriodic, sumDead_interactStochastic]
      _ ≤ _ := sumDead_killAll_le _ _
  have hPT : (s.nextDay o).popTotal
      = ((((s.interactStochastic o).interactPeriodic o).healAll o).killAll
          o).popTotal := popTotal_popsNextDay _
  have hSIm : (s.nextDay o).sumImmune
      = ((((s.interactStochastic o).interactPeriodic o).healAll o).killAll
          o).sumImmune := sumImmune_popsNextDay _
  have hSD : (s.nextDay o).sumDead
      = ((((s.interactStochastic o).interactPeriodic o).healAll o).killAll
          o).sumDead := sumDead_popsNextDay _
  refine ⟨?_, ?_, ?_, ?_, ?_, ?_, ?_, ?_, ?_, ?_, ?_, ?_, ?_⟩
  · rw [hPT, hTot4]
    exact hg.sizeEq
  · show s.simulationDays ++ [s.dayI] = List.range (s.dayI + 1)
    rw [hg.daysEq, List.range_succ]
  · show (s.unaffected ++ [_]).length = s.dayI + 1
    simp [hg.lenU]
  · show (s.infected ++ [_]).length = s.dayI + 1
    simp [hg.lenI]
  · show (s.immune ++ [_]).length = s.dayI + 1
    simp [hg.lenIm]
  · show (s.dead ++ [_]).length = s.dayI + 1
    simp [hg.lenD]
  · show (s.newCases ++ [_]).length = s.dayI + 1
    simp [hg.lenN]
  · show (s.hospitalized ++ [_]).length = s.dayI + 1
    simp [hg.lenH]
  · intro d hd
    show (s.unaffected ++ [_]).getD d 0 + (s.infected ++ [_]).getD d 0 +
        (s.immune ++ [_]).getD d 0 + (s.dead ++ [_]).getD d 0 = s.size
    rcases Nat.lt_or_ge d s.dayI with hlt | hge
    · rw [getD_append_lt _ _ _ d (hg.lenU ▸ hlt), getD_append_lt _ _ _ d (hg.lenI ▸ hlt),
        getD_append_lt _ _ _ d (hg.lenIm ▸ hlt), getD_append_lt _ _ _ d (hg.lenD ▸ hlt)]
      exact hg.rows d hlt
    · have hdeq : d = s.dayI := Nat.le_antisymm (Nat.lt_succ_iff.mp hd) hge
      rw [hdeq, show s.dayI = s.unaffected.length from hg.lenU.symm, getD_append_self,
        show s.unaffected.length = s.infected.length from hg.lenU.trans hg.lenI.symm,
        getD_append_self,
        show s.infected.length = s.immune.length from hg.lenI.trans hg.lenIm.symm,
        getD_append_self,
        show s.immune.length = s.dead.length from hg.lenIm.trans hg.lenD.symm,
        getD_append_self]
      rw [centre_partition, hTot4, hg.sizeEq]
  · show monoList (s.immune ++ [_])
    exact monoList_append _ _ hg.monoIm (lastBound_mono _ _ _ hImLe hg.lastIm)
  · show monoList (s.dead ++ [_])
    exact monoList_append _ _ hg.monoD (lastBound_mono _ _ _ hDLe hg.lastD)
  · show lastBound (s.immune ++ [_]) _
    rw [hSIm]
    exact lastBound_append _ _ _ (le_refl _)
  · show lastBound (s.dead ++ [_]) _
    rw [hSD]
    exact lastBound_append _ _ _ (le_refl _)

theorem good_runDays (os : List DayOracle) (s : PopulationCentreBase)
    (hg : Good s) : Good (runDays os s) := by
  induction os generalizing s with
  | nil => exact hg
  | cons o os ih => exact ih _ (good_nextDay o s hg)

theorem nextDay_dayI (o : DayOracle) (s : PopulationCentreBase) :
    (s.nextDay o).dayI = s.dayI + 1 := rfl

theorem runDays_dayI : ∀ (os : List DayOracle) (s : PopulationCentreBase),
    (runDays os s).dayI = s.dayI + os.length
  | [], _ => rfl
  | o :: os, s => by
    have := runDays_dayI os (s.nextDay o)
    simpa [runDays, nextDay_dayI, Nat.add_assoc, Nat.add_comm 1 os.length] using this

theorem runDays_name : ∀ (os : List DayOracle) (s : PopulationCentreBase),
    (runDays os s).name = s.name
  | [], _ => rfl
  | o :: os, s => runDays_name os (s.nextDay o)

theorem runDays_longitude : ∀ (os : List DayOracle) (s : PopulationCentreBase),
    (runDays os s).longitude = s.longitude
  | [], _ => rfl
  | o :: os, s => runDays_longitude os (s.nextDay o)

theorem runDays_latitude : ∀ (os : List DayOracle) (s : PopulationCentreBase),
    (runDays os s).latitude = s.latitude
  | [], _ => rfl
  | o :: os, s => runDays_latitude os (s.nextDay o)

theorem runDays_size : ∀ (os : List DayOracle) (s : PopulationCentreBase),
    (runDays os s).size = s.size
  | [], _ => rfl
  | o :: os, s => runDays_size os (s.nextDay o)

theorem infect_size (io : InfectOracle) (s : PopulationCentreBase) (n : ℚ)
    (seed : Option Nat) : (s.infect io n seed).size = s.size := rfl

theorem range_getD (n i : Nat) (h : i < n) : (List.range n).getD i 0 = i := by
  rw [List.getD_eq_getElem _ _ (by simpa using h)]
  simp

/-! ## Claims -/

/-- Claim C1: on any run (a centre built by the constructor, optionally seeded
with initial infections, then any number of simulated days), every logged day's
four health-state counts sum to the centre's total size, and the total
individual count stays equal to the size fixed at construction — death never
removes an individual. -/
theorem claim_C1 (lon lat : ℚ) (pops : List PopulationBase) (v : Virus)
    (nm : String) (seed : Nat) (io : InfectOracle) (n0 : ℚ) (sd0 : Option Nat)
    (os : List DayOracle) (d : Nat)
    (hd : d < (runDays os ((mkPopulationCentre lon lat pops v nm
      seed).infect io n0 sd0)).unaffected.length) :
    (runDays os ((mkPopulationCentre lon lat pops v nm seed).infect io n0
        sd0)).unaffected.getD d 0 +
      (runDays os ((mkPopulationCentre lon lat pops v nm seed).infect io n0
        sd0)).infected.getD d 0 +
      (runDays os ((mkPopulationCentre lon lat pops v nm seed).infect io n0
        sd0)).immune.getD d 0 +
      (runDays os ((mkPopulationCentre lon lat pops v nm seed).infect io n0
        sd0)).dead.getD d 0
      = (mkPopulationCentre lon lat pops v nm seed).size ∧
    (runDays os ((mkPopulationCentre lon lat pops v nm seed).infect io n0
        sd0)).popTotal = (mkPopulationCentre lon lat pops v nm seed).size := by
  have hg : Good (runDays os ((mkPopulationCentre lon lat pops v nm
      seed).infect io n0 sd0)) :=
    good_runDays os _ (good_infect io _ n0 sd0 (good_mk lon lat pops v nm seed))
  have hsz : (runDays os ((mkPopulationCentre lon lat pops v nm seed).infect io
      n0 sd0)).size = (mkPopulationCentre lon lat pops v nm seed).size := by
    rw [runDays_size, infect_size]
  constructor
  · rw [← hsz]
    exact hg.rows d (hg.lenU ▸ hd)
  · rw [← hsz]
    exact hg.sizeEq.symm

theorem claim_C1_witness :
    (0 < (runDays [⟨fun _ _ => 1, fun _ _ _ => true, fun _ _ => 1,
        fun _ _ _ => true, ⟨fun _ _ => 2, fun _ _ => false⟩,
        ⟨fun _ _ => 2, fun _ _ => false⟩, fun _ _ => false⟩]
      ((mkPopulationCentre 0 0 [mkPopulation 3] ⟨1, 7, 2, 0⟩ "bb"
        42).infect ⟨fun _ _ => 2, fun _ _ => false⟩ 1 none)).unaffected.length) ∧
    ((runDays [⟨fun _ _ => 1, fun _ _ _ => true, fun _ _ => 1,
        fun _ _ _ => true, ⟨fun _ _ => 2, fun _ _ => false⟩,
        ⟨fun _ _ => 2, fun _ _ => false⟩, fun _ _ => false⟩]
      ((mkPopulationCentre 0 0 [mkPopulation 3] ⟨1, 7, 2, 0⟩ "bb"
        42).infect ⟨fun _ _ => 2, fun _ _ => false⟩ 1 none)).unaffected.getD 0 0 +
      (runDays [⟨fun _ _ => 1, fun _ _ _ => true, fun _ _ => 1,
        fun _ _ _ => true, ⟨fun _ _ => 2, fun _ _ => false⟩,
        ⟨fun _ _ => 2, fun _ _ => false⟩, fun _ _ => false⟩]
      ((mkPopulationCentre 0 0 [mkPopulation 3] ⟨1, 7, 2, 0⟩ "bb"
        42).infect ⟨fun _ _ => 2, fun _ _ => false⟩ 1 none)).infected.getD 0 0 +
      (runDays [⟨fun _ _ => 1, fun _ _ _ => true, fun _ _ => 1,
        fun _ _ _ => true, ⟨fun _ _ => 2, fun _ _ => false⟩,
        ⟨fun _ _ => 2, fun _ _ => false⟩, fun _ _ => false⟩]
      ((mkPopulationCentre 0 0 [mkPopulation 3] ⟨1, 7, 2, 0⟩ "bb"
        42).infect ⟨fun _ _ => 2, fun _ _ => false⟩ 1 none)).immune.getD 0 0 +
      (runDays [⟨fun _ _ => 1, fun _ _ _ => true, fun _ _ => 1,
        fun _ _ _ => true, ⟨fun _ _ => 2, fun _ _ => false⟩,
        ⟨fun _ _ => 2, fun _ _ => false⟩, fun _ _ => false⟩]
      ((mkPopulationCentre 0 0 [mkPopulation 3] ⟨1, 7, 2, 0⟩ "bb"
        42).infect ⟨fun _ _ => 2, fun _ _ => false⟩ 1 none)).dead.getD 0 0
      = (mkPopulationCentre 0 0 [mkPopulation 3] ⟨1, 7, 2, 0⟩ "bb" 42).size) :=
  ⟨by decide,
   (claim_C1 0 0 [mkPopulation 3] ⟨1, 7, 2, 0⟩ "bb" 42
     ⟨fun _ _ => 2, fun _ _ => false⟩ 1 none
     [⟨fun _ _ => 1, fun _ _ _ => true, fun _ _ => 1, fun _ _ _ => true,
       ⟨fun _ _ => 2, fun _ _ => false⟩, ⟨fun _ _ => 2, fun _ _ => false⟩,
       fun _ _ => false⟩] 0 (by decide)).1⟩

/-- Claim C5: `next_day` is exactly the composition — stochastic interaction,
periodic interaction, heal, kill, log, per-sub-population day advance, then
incrementing the centre's own day counter; consequently the day counter grows
by one and exactly one row keyed by the old day index is appended. -/
theorem claim_C5 (o : DayOracle) (s : PopulationCentreBase) :
    s.nextDay o
      = ((((((s.interactStochastic o).interactPeriodic o).healAll o).killAll o
        ).logData).popsNextDay).incDay ∧
    (s.nextDay o).dayI = s.dayI + 1 ∧
    (s.nextDay o).simulationDays = s.simulationDays ++ [s.dayI] :=
  ⟨rfl, rfl, rfl⟩

/-- Claim C6: across a run, the logged immune and dead series are
non-decreasing day over day — Immune and Dead are terminal states. -/
theorem claim_C6 (lon lat : ℚ) (pops : List PopulationBase) (v : Virus)
    (nm : String) (seed : Nat) (io : InfectOracle) (n0 : ℚ) (sd0 : Option Nat)
    (os : List DayOracle) (d : Nat)
    (hd : d + 1 < (runDays os ((mkPopulationCentre lon lat pops v nm
      seed).infect io n0 sd0)).immune.length) :
    (runDays os ((mkPopulationCentre lon lat pops v nm seed).infect io n0
        sd0)).immune.getD d 0 ≤
      (runDays os ((mkPopulationCentre lon lat pops v nm seed).infect io n0
        sd0)).immune.getD (d + 1) 0 ∧
    (runDays os ((mkPopulationCentre lon lat pops v nm seed).infect io n0
        sd0)).dead.getD d 0 ≤
      (runDays os ((mkPopulationCentre lon lat pops v nm seed).infect io n0
        sd0)).dead.getD (d + 1) 0 := by
  have hg : Good (runDays os ((mkPopulationCentre lon lat pops v nm
      seed).infect io n0 sd0)) :=
    good_runDays os _ (good_infect io _ n0 sd0 (good_mk lon lat pops v nm seed))
  refine ⟨monoList_getD _ hg.monoIm d hd, monoList_getD _ hg.monoD d ?_⟩
  rw [hg.lenD, ← hg.lenIm]
  exact hd

theorem claim_C6_witness :
    (0 + 1 < (runDays [⟨fun _ _ => 1, fun _ _ _ => true, fun _ _ => 1,
        fun _ _ _ => true, ⟨fun _ _ => 2, fun _ _ => false⟩,
        ⟨fun _ _ => 2, fun _ _ => false⟩, fun _ _ => false⟩,
      ⟨fun _ _ => 1, fun _ _ _ => true, fun _ _ => 1,
        fun _ _ _ => true, ⟨fun _ _ => 2, fun _ _ => false⟩,
        ⟨fun _ _ => 2, fun _ _ => false⟩, fun _ _ => false⟩]
      ((mkPopulationCentre 0 0 [mkPopulation 3] ⟨1, 7, 2, 0⟩ "bb"
        42).infect ⟨fun _ _ => 2, fun _ _ => false⟩ 1 none)).immune.length) ∧
    ((runDays [⟨fun _ _ => 1, fun _ _ _ => true, fun _ _ => 1,
        fun _ _ _ => true, ⟨fun _ _ => 2, fun _ _ => false⟩,
        ⟨fun _ _ => 2, fun _ _ => false⟩, fun _ _ => false⟩,
      ⟨fun _ _ => 1, fun _ _ _ => true, fun _ _ => 1,
        fun _ _ _ => true, ⟨fun _ _ => 2, fun _ _ => false⟩,
        ⟨fun _ _ => 2, fun _ _ => false⟩, fun _ _ => false⟩]
      ((mkPopulationCentre 0 0 [mkPopulation 3] ⟨1, 7, 2, 0⟩ "bb"
        42).infect ⟨fun _ _ => 2, fun _ _ => false⟩ 1 none)).immune.getD 0 0 ≤
      (runDays [⟨fun _ _ => 1, fun _ _ _ => true, fun _ _ => 1,
        fun _ _ _ => true, ⟨fun _ _ => 2, fun _ _ => false⟩,
        ⟨fun _ _ => 2, fun _ _ => false⟩, fun _ _ => false⟩,
      ⟨fun _ _ => 1, fun _ _ _ => true, fun _ _ => 1,
        fun _ _ _ => true, ⟨fun _ _ => 2, fun _ _ => false⟩,
        ⟨fun _ _ => 2, fun _ _ => false⟩, fun _ _ => false⟩]
      ((mkPopulationCentre 0 0 [mkPopulation 3] ⟨1, 7, 2, 0⟩ "bb"
        42).infect ⟨fun _ _ => 2, fun _ _ => false⟩ 1 none)).immune.getD 1 0) :=
  ⟨by decide,
   (claim_C6 0 0 [mkPopulation 3] ⟨1, 7, 2, 0⟩ "bb" 42
     ⟨fun _ _ => 2, fun _ _ => false⟩ 1 none
     [⟨fun _ _ => 1, fun _ _ _ => true, fun _ _ => 1, fun _ _ _ => true,
       ⟨fun _ _ => 2, fun _ _ => false⟩, ⟨fun _ _ => 2, fun _ _ => false⟩,
       fun _ _ => false⟩,
      ⟨fun _ _ => 1, fun _ _ _ => true, fun _ _ => 1, fun _ _ _ => true,
       ⟨fun _ _ => 2, fun _ _ => false⟩, ⟨fun _ _ => 2, fun _ _ => false⟩,
       fun _ _ => false⟩] 0 (by decide)).1⟩

/-- Claim C8: after `k` simulated days each of the seven per-day arrays has
length `k`, entry `i` of the day array is `i`, and `to_dict` returns exactly
the identity fields and those arrays, index-aligned. -/
theorem claim_C8 (lon lat : ℚ) (pops : List PopulationBase) (v : Virus)
    (nm : String) (seed : Nat) (os : List DayOracle) :
    (runDays os (mkPopulationCentre lon lat pops v nm
      seed)).simulationDays.length = os.length ∧
    (runDays os (mkPopulationCentre lon lat pops v nm seed)).unaffected.length
      = os.length ∧
    (runDays os (mkPopulationCentre lon lat pops v nm seed)).infected.length
      = os.length ∧
    (runDays os (mkPopulationCentre lon lat pops v nm seed)).immune.length
      = os.length ∧
    (runDays os (mkPopulationCentre lon lat pops v nm seed)).dead.length
      = os.length ∧
    (runDays os (mkPopulationCentre lon lat pops v nm seed)).newCases.length
      = os.length ∧
    (runDays os (mkPopulationCentre lon lat pops v nm seed)).hospitalized.length
      = os.length ∧
    (∀ i, i < os.length →
      (runDays os (mkPopulationCentre lon lat pops v nm
        seed)).simulationDays.getD i 0 = i) ∧
    (runDays os (mkPopulationCentre lon lat pops v nm seed)).toDict
      = ⟨nm, (runDays os (mkPopulationCentre lon lat pops v nm seed)).size,
          lon, lat,
          (runDays os (mkPopulationCentre lon lat pops v nm seed)).simulationDays,
          (runDays os (mkPopulationCentre lon lat pops v nm seed)).unaffected,
          (runDays os (mkPopulationCentre lon lat pops v nm seed)).infected,
          (runDays os (mkPopulationCentre lon lat pops v nm seed)).immune,
          (runDays os (mkPopulationCentre lon lat pops v nm seed)).dead,
          (runDays os (mkPopulationCentre lon lat pops v nm seed)).newCases,
          (runDays os (mkPopulationCentre lon lat pops v nm seed)).hospitalized⟩ := by
  have hg : Good (runDays os (mkPopulationCentre lon lat pops v nm seed)) :=
    good_runDays os _ (good_mk lon lat pops v nm seed)
  have hday : (runDays os (mkPopulationCentre lon lat pops v nm seed)).dayI
      = os.length := by
    rw [runDays_dayI]
    exact Nat.zero_add os.length
  have hlen : (List.range os.length).length = os.length := List.length_range _
  refine ⟨?_, hday ▸ hg.lenU, hday ▸ hg.lenI, hday ▸ hg.lenIm, hday ▸ hg.lenD,
    hday ▸ hg.lenN, hday ▸ hg.lenH, ?_, ?_⟩
  · rw [hg.daysEq, hday, hlen]
  · intro i hi
    rw [hg.daysEq, hday]
    exact range_getD os.length i hi
  · unfold PopulationCentreBase.toDict
    rw [runDays_name, runDays_longitude, runDays_latitude]
    rfl

theorem claim_C8_witness :
    ((runDays [⟨fun _ _ => 1, fun _ _ _ => true, fun _ _ => 1,
        fun _ _ _ => true, ⟨fun _ _ => 2, fun _ _ => false⟩,
        ⟨fun _ _ => 2, fun _ _ => false⟩, fun _ _ => false⟩]
      (mkPopulationCentre 0 0 [mkPopulation 3] ⟨1, 7, 2, 0⟩ "bb"
        42)).simulationDays.length = 1) ∧
    (0 < 1) ∧
    ((runDays [⟨fun _ _ => 1, fun _ _ _ => true, fun _ _ => 1,
        fun _ _ _ => true, ⟨fun _ _ => 2, fun _ _ => false⟩,
        ⟨fun _ _ => 2, fun _ _ => false⟩, fun _ _ => false⟩]
      (mkPopulationCentre 0 0 [mkPopulation 3] ⟨1, 7, 2, 0⟩ "bb"
        42)).simulationDays.getD 0 0 = 0) :=
  ⟨(claim_C8 0 0 [mkPopulation 3] ⟨1, 7, 2, 0⟩ "bb" 42
      [⟨fun _ _ => 1, fun _ _ _ => true, fun _ _ => 1, fun _ _ _ => true,
        ⟨fun _ _ => 2, fun _ _ => false⟩, ⟨fun _ _ => 2, fun _ _ => false⟩,
        fun _ _ => false⟩]).1,
   by decide,
   (claim_C8 0 0 [mkPopulation 3] ⟨1, 7, 2, 0⟩ "bb" 42
      [⟨fun _ _ => 1, fun _ _ _ => true, fun _ _ => 1, fun _ _ _ => true,
        ⟨fun _ _ => 2, fun _ _ => false⟩, ⟨fun _ _ => 2, fun _ _ => false⟩,
        fun _ _ => false⟩]).2.2.2.2.2.2.2.1 0 (by decide)⟩

theorem unaffectedCount_mkPopulation : ∀ n : Nat, (mkPopulation n).unaffectedCount = n
  | 0 => rfl
  | n + 1 => by
    have ih := unaffectedCount_mkPopulation n
    unfold mkPopulation PopulationBase.unaffectedCount at ih ⊢
    simp only [List.replicate_succ, List.countP_cons] at ih ⊢
    simp [ih]

theorem floorNatQ_half_example : floorNatQ (((100 : Nat) : ℚ) / ((200 : Nat) : ℚ) * 10) = 5 := by
  have h : ((100 : Nat) : ℚ) / ((200 : Nat) : ℚ) * 10 = ((5 : Nat) : ℚ) := by
    push_cast
    norm_num
  rw [floorNatQ, h, Int.floor_natCast]
  rfl

/-- Claim C2: `PopulationCentre.infect(n)` hands each sub-population the raw
proportional request `len(p_i)/S * n`, whose truncation is exactly
`floor(len(p_i)/S * n)`, so each sub-population newly infects
`min(floor(len(p_i)/S * n), unaffected(p_i))` individuals — the remainder is
dropped, never redistributed; in particular `infect(10)` over two fresh
sub-populations of 100 each yields exactly 5 and 5 new cases. -/
theorem claim_C2 (io : InfectOracle) (s : PopulationCentreBase) (n : ℚ)
    (seed : Option Nat) (j : Nat) (hj : j < s.populations.length) :
    (s.infect io n seed).populations.getD j ⟨[], 0⟩
      = (s.populations.getD j ⟨[], 0⟩).infect (io.res j) (io.sev j)
          (((s.populations.getD j ⟨[], 0⟩).individuals.length : ℚ) / (s.size : ℚ) * n)
          seed ∧
    ((s.infect io n seed).populations.getD j ⟨[], 0⟩).newCases
      = (s.populations.getD j ⟨[], 0⟩).newCases
        + min (floorNatQ (((s.populations.getD j ⟨[], 0⟩).individuals.length : ℚ)
              / (s.size : ℚ) * n))
            (s.populations.getD j ⟨[], 0⟩).unaffectedCount ∧
    ((mkPopulationCentre 0 0 [mkPopulation 100, mkPopulation 100] ⟨1, 7, 2, 0⟩
        "town" 42).infect io 10 seed).populations.map PopulationBase.newCases
      = [5, 5] := by
  have h1 : (s.infect io n seed).populations.getD j ⟨[], 0⟩
      = (s.populations.getD j ⟨[], 0⟩).infect (io.res j) (io.sev j)
          (((s.populations.getD j ⟨[], 0⟩).individuals.length : ℚ) / (s.size : ℚ) * n)
          seed := by
    simp only [PopulationCentreBase.infect]
    have hgd := getD_imap
      (fun j p => PopulationBase.infect (io.res j) (io.sev j) p
        ((p.individuals.length : ℚ) / (s.size : ℚ) * n) seed)
      0 j s.populations ⟨[], 0⟩ ⟨[], 0⟩ hj
    simpa using hgd
  refine ⟨h1, ?_, ?_⟩
  · rw [h1, newCases_infect]
  · have hmk : ((mkPopulationCentre 0 0 [mkPopulation 100, mkPopulation 100]
        ⟨1, 7, 2, 0⟩ "town" 42).size : ℚ) = ((200 : Nat) : ℚ) := by
      simp [mkPopulationCentre, mkPopulation]
    have hlen : ((mkPopulation 100).individuals.length : ℚ) = ((100 : Nat) : ℚ) := by
      simp [mkPopulation]
    simp only [PopulationCentreBase.infect, imap, List.map_cons, List.map_nil,
      newCases_infect, hmk, hlen, floorNatQ_half_example,
      unaffectedCount_mkPopulation]
    simp [mkPopulation]

theorem claim_C2_witness :
    (0 < (mkPopulationCentre 0 0 [mkPopulation 100, mkPopulation 100]
        ⟨1, 7, 2, 0⟩ "town" 42).populations.length) ∧
    ((mkPopulationCentre 0 0 [mkPopulation 100, mkPopulation 100] ⟨1, 7, 2, 0⟩
        "town" 42).infect ⟨fun _ _ => 3, fun _ _ => true⟩ 10
        none).populations.map PopulationBase.newCases = [5, 5] :=
  ⟨by decide,
   (claim_C2 ⟨fun _ _ => 3, fun _ _ => true⟩
     (mkPopulationCentre 0 0 [mkPopulation 100, mkPopulation 100] ⟨1, 7, 2, 0⟩
       "town" 42) 10 none 0 (by decide)).2.2⟩

/-- Counterexample to claim C10 as stated: a centre constructed with an empty
populations list has total size zero, yet `infect` succeeds — the loop body
that performs the division never runs — so it is false that every infect call
on a size-zero centre fails with a division-by-zero error. -/
theorem claim_C10_counterexample :
    (mkPopulationCentre 0 0 [] ⟨1, 7, 2, 0⟩ "empty" 42).size = 0 ∧
    (mkPopulationCentre 0 0 [] ⟨1, 7, 2, 0⟩ "empty" 42).infectChecked
        ⟨fun _ _ => 0, fun _ _ => false⟩ 5 none
      = Except.ok (mkPopulationCentre 0 0 [] ⟨1, 7, 2, 0⟩ "empty" 42) := by
  refine ⟨rfl, ?_⟩
  unfold PopulationCentreBase.infectChecked
  rw [if_neg (by simp [mkPopulationCentre])]
  rfl

/-- Claim C10 (amended): `infect` divides by the centre's size, so on any
centre with at least one individual every request is well defined; on a
size-zero centre the first loop iteration raises `ZeroDivisionError` — which
happens exactly when the populations list is non-empty, while with an empty
populations list the call returns with the state unchanged. -/
theorem claim_C10 (io : InfectOracle) (s : PopulationCentreBase) (n : ℚ)
    (seed : Option Nat) :
    (0 < s.size → s.infectChecked io n seed = Except.ok (s.infect io n seed)) ∧
    (s.populations ≠ [] → s.size = 0 → s.infectChecked io n seed
      = Except.error "ZeroDivisionError: division by zero") ∧
    (s.populations = [] → s.infectChecked io n seed = Except.ok s) := by
  refine ⟨?_, ?_, ?_⟩
  · intro h
    unfold PopulationCentreBase.infectChecked
    rw [if_neg]
    intro hc
    omega
  · intro hne h0
    unfold PopulationCentreBase.infectChecked
    rw [if_pos ⟨hne, h0⟩]
  · intro hemp
    unfold PopulationCentreBase.infectChecked
    rw [if_neg (by simp [hemp])]
    unfold PopulationCentreBase.infect
    cases s
    simp_all [imap]

theorem claim_C10_witness :
    (0 < (mkPopulationCentre 0 0 [mkPopulation 2] ⟨1, 7, 2, 0⟩ "bb" 42).size) ∧
    ((mkPopulationCentre 0 0 [mkPopulation 2] ⟨1, 7, 2, 0⟩ "bb" 42).infectChecked
        ⟨fun _ _ => 0, fun _ _ => false⟩ 1 none
      = Except.ok ((mkPopulationCentre 0 0 [mkPopulation 2] ⟨1, 7, 2, 0⟩ "bb"
          42).infect ⟨fun _ _ => 0, fun _ _ => false⟩ 1 none)) :=
  ⟨by decide,
   (claim_C10 ⟨fun _ _ => 0, fun _ _ => false⟩
     (mkPopulationCentre 0 0 [mkPopulation 2] ⟨1, 7, 2, 0⟩ "bb" 42) 1
     none).1 (by decide)⟩

/-- Counterexample to claim C4 as stated: `_interact_periodic` draws the
periodic interaction multiplicities with no seed (line 181), so two calls on
the same centre state under different ambient random draws observe different
contact structures — the claimed two-run determinism fails. -/
theorem claim_C4_counterexample :
    (mkPopulationCentre 0 0 [mkPopulation 1] ⟨1, 7, 2, 0⟩ "bb" 42).periMults
        ⟨fun _ _ => 0, fun _ _ _ => false, fun _ _ => 0, fun _ _ _ => false,
         ⟨fun _ _ => 0, fun _ _ => false⟩, ⟨fun _ _ => 0, fun _ _ => false⟩,
         fun _ _ => false⟩
      ≠ (mkPopulationCentre 0 0 [mkPopulation 1] ⟨1, 7, 2, 0⟩ "bb" 42).periMults
        ⟨fun _ _ => 0, fun _ _ _ => false, fun _ _ => 1, fun _ _ _ => false,
         ⟨fun _ _ => 0, fun _ _ => false⟩, ⟨fun _ _ => 0, fun _ _ => false⟩,
         fun _ _ => false⟩ := by
  decide

/-- Claim C4 (amended): in `_interact_periodic` the health-state draw is made
under the centre's fixed seed — and, the call subsampling nothing, it is the
full in-order flag vector, identical call-to-call — and the resulting `infect`
call is made with that same fixed seed; the periodic multiplicities, however,
are drawn with no seed, so the contact structure need not recur (see the
counterexample). -/
theorem claim_C4 (o : DayOracle) (s : PopulationCentreBase) :
    s.interactPeriodic o
      = s.infect o.pInf ((s.periTotal o : Nat) : ℚ) (some s.randomSeed) ∧
    (∀ p : PopulationBase, p.getHealthStates none (some s.randomSeed)
      = p.healthFlags) :=
  ⟨rfl, fun _ => rfl⟩

theorem list_sum_range (f : Nat → Nat) : ∀ n : Nat,
    ((List.range n).map f).sum = ∑ r ∈ Finset.range n, f r
  | 0 => rfl
  | n + 1 => by
    rw [List.range_succ, List.map_append, List.sum_append, Finset.sum_range_succ,
      list_sum_range f n]
    simp

theorem list_filter_length_range (p : Nat → Bool) : ∀ n : Nat,
    ((List.range n).filter p).length
      = ((Finset.range n).filter (fun i => p i = true)).card
  | 0 => rfl
  | n + 1 => by
    rw [List.range_succ, List.filter_append, List.length_append,
      list_filter_length_range p n, Finset.range_succ, Finset.filter_insert]
    by_cases hp : p n = true
    · rw [if_pos hp, Finset.card_insert_of_not_mem (by simp)]
      simp [hp]
    · rw [if_neg hp]
      simp [hp]

theorem getD_range_map (o : Nat → Nat) (n i : Nat) (h : i < n) :
    ((List.range n).map o).getD i 0 = o i := by
  rw [List.getD_eq_getElem _ _ (by simpa using h)]
  simp

theorem interactionTotal_formula (h : List Bool) (o : Nat → Nat) (N : Nat)
    (t : Nat → Nat → Bool) :
    interactionTotal h ((List.range N).map o) t
      = ∑ r ∈ Finset.range (listMax ((List.range N).map o)),
          ((Finset.range N).filter
            (fun i => r < o i ∧ t r i = true ∧ h.getD i false = true)).card := by
  unfold interactionTotal
  rw [list_sum_range]
  apply Finset.sum_congr rfl
  intro r _
  unfold roundCount
  rw [List.length_map, List.length_range, list_filter_length_range]
  refine congrArg Finset.card ?_
  apply Finset.filter_congr
  intro i hi
  rw [getD_range_map o N i (Finset.mem_range.mp hi)]
  simp [and_assoc]

/-- Claim C3: `_interact_stochastic` counts, for every round `r` below the
maximum multiplicity, the individuals with multiplicity above `r` that pass
their transmission trial and are themselves Infected (source-only counting),
sums those counts over rounds and sub-populations, and applies exactly that
total through a single `infect` call with no seed. -/
theorem claim_C3 (o : DayOracle) (s : PopulationCentreBase) :
    s.interactStochastic o = s.infect o.sInf ((s.stochTotal o : Nat) : ℚ) none ∧
    s.stochTotal o
      = ∑ j ∈ Finset.range s.populations.length,
          ∑ r ∈ Finset.range (listMax ((s.populations.getD j
              ⟨[], 0⟩).stochasticMult (o.sMult j) none)),
            ((Finset.range (s.populations.getD j
                ⟨[], 0⟩).individuals.length).filter
              (fun i => r < o.sMult j i ∧ o.sTrial j r i = true ∧
                (s.populations.getD j ⟨[], 0⟩).healthFlags.getD i false
                  = true)).card := by
  refine ⟨rfl, ?_⟩
  unfold PopulationCentreBase.stochTotal
  have hs := sum_imap
    (fun j p => interactionTotal p.healthFlags (p.stochasticMult (o.sMult j) none)
      (o.sTrial j))
    (⟨[], 0⟩ : PopulationBase) s.populations 0
  rw [hs]
  apply Finset.sum_congr rfl
  intro j _
  rw [Nat.zero_add]
  simp only [PopulationBase.stochasticMult, Option.getD_none]
  exact interactionTotal_formula _ (o.sMult j) _ (o.sTrial j)

theorem flatten_length_eq (f1 : α → List β) (f2 : Nat → α → List γ)
    (hf : ∀ (j : Nat) (p : α), (f2 j p).length = (f1 p).length) :
    ∀ (l : List α) (i : Nat),
    ((imap f2 i l).flatten).length = ((l.map f1).flatten).length
  | [], _ => rfl
  | a :: as, i => by
    simp only [imap, List.map_cons, List.flatten_cons, List.length_append]
    rw [hf i a, flatten_length_eq f1 f2 hf as (i + 1)]

theorem subSize_le (m lp S : Nat) (h : m ≤ S) : subSize m lp S ≤ lp := by
  unfold subSize floorNatQ
  rcases Nat.eq_zero_or_pos S with hS | hS
  · have hm : m = 0 := by omega
    subst hm
    simp
  · have hSQ : (0 : ℚ) < (S : ℚ) := by exact_mod_cast hS
    have h1 : (m : ℚ) * (lp : ℚ) / (S : ℚ) ≤ (lp : ℚ) := by
      rw [div_le_iff hSQ]
      have hm : (m : ℚ) ≤ (S : ℚ) := by exact_mod_cast h
      calc (m : ℚ) * (lp : ℚ) ≤ (S : ℚ) * (lp : ℚ) :=
            mul_le_mul_of_nonneg_right hm (by positivity)
        _ = (lp : ℚ) * (S : ℚ) := mul_comm _ _
    have h2 : ⌊(m : ℚ) * (lp : ℚ) / (S : ℚ)⌋ ≤ (lp : ℤ) := by
      calc ⌊(m : ℚ) * (lp : ℚ) / (S : ℚ)⌋ ≤ ⌊(lp : ℚ)⌋ := Int.floor_mono h1
        _ = (lp : ℤ) := Int.floor_natCast lp
    calc (⌊(m : ℚ) * (lp : ℚ) / (S : ℚ)⌋).toNat ≤ ((lp : ℤ)).toNat :=
          Int.toNat_le_toNat h2
      _ = lp := by simp

theorem length_healthFlags (p : PopulationBase) :
    p.healthFlags.length = p.individuals.length := by
  simp [PopulationBase.healthFlags]

/-- Claim C9: `get_travelling(n, random_seed)` returns two arrays of equal
length (for any subsample request not exceeding the centre size), and its
multiplicity source flips with seed presence opposite to the health states:
seed absent pairs the health states with periodic multiplicities (the seed,
i.e. `None`, passed along), seed present pairs the seeded health states with
stochastic multiplicities drawn without that seed. -/
theorem claim_C9 (oS oP : Nat → Nat → Nat) (s : PopulationCentreBase)
    (n : Option Nat) (seed : Option Nat) (hn : n.getD 0 ≤ s.size) :
    (s.getTravelling oS oP n seed).1.length
      = (s.getTravelling oS oP n seed).2.length ∧
    (seed = none → (s.getTravelling oS oP n seed).2
      = (imap (fun j p => p.periodicMult (oP j)
          (n.map (fun m => subSize m p.individuals.length s.size)) none)
          0 s.populations).flatten) ∧
    (∀ x : Nat, seed = some x → (s.getTravelling oS oP n seed).2
      = (imap (fun j p => p.stochasticMult (oS j)
          (n.map (fun m => subSize m p.individuals.length s.size)))
          0 s.populations).flatten) := by
  rcases n with _ | m <;> rcases seed with _ | x
  · refine ⟨?_, fun _ => rfl, fun y hy => Option.noConfusion hy⟩
    exact (flatten_length_eq (fun p => p.getHealthStates none none)
      (fun j p => p.periodicMult (oP j) none none)
      (fun j p => by
        simp [PopulationBase.periodicMult, PopulationBase.getHealthStates,
          length_healthFlags]) s.populations 0).symm
  · refine ⟨?_, ⟨fun h => Option.noConfusion h, fun y hy => rfl⟩⟩
    exact (flatten_length_eq (fun p => p.getHealthStates none (some x))
      (fun j p => p.stochasticMult (oS j) none)
      (fun j p => by
        simp [PopulationBase.stochasticMult, PopulationBase.getHealthStates,
          length_healthFlags]) s.populations 0).symm
  · have hm : m ≤ s.size := by simpa using hn
    refine ⟨?_, fun _ => rfl, fun y hy => Option.noConfusion hy⟩
    exact (flatten_length_eq
      (fun p => p.getHealthStates (some (subSize m p.individuals.length s.size)) none)
      (fun j p => p.periodicMult (oP j)
        (some (subSize m p.individuals.length s.size)) none)
      (fun j p => by
        simp only [PopulationBase.periodicMult, PopulationBase.getHealthStates,
          Option.getD_some, List.length_map, List.length_range, List.length_take,
          length_healthFlags]
        exact (Nat.min_eq_left (subSize_le m p.individuals.length s.size hm)).symm)
      s.populations 0).symm
  · have hm : m ≤ s.size := by simpa using hn
    refine ⟨?_, ⟨fun h => Option.noConfusion h, fun y hy => rfl⟩⟩
    exact (flatten_length_eq
      (fun p => p.getHealthStates (some (subSize m p.individuals.length s.size))
        (some x))
      (fun j p => p.stochasticMult (oS j)
        (some (subSize m p.individuals.length s.size)))
      (fun j p => by
        simp only [PopulationBase.stochasticMult, PopulationBase.getHealthStates,
          Option.getD_some, List.length_map, List.length_range, List.length_take,
          length_healthFlags]
        exact (Nat.min_eq_left (subSize_le m p.individuals.length s.size hm)).symm)
      s.populations 0).symm

theorem claim_C9_witness :
    ((some 1 : Option Nat).getD 0
      ≤ (mkPopulationCentre 0 0 [mkPopulation 2] ⟨1, 7, 2, 0⟩ "bb" 42).size) ∧
    (((mkPopulationCentre 0 0 [mkPopulation 2] ⟨1, 7, 2, 0⟩ "bb"
        42).getTravelling (fun _ _ => 4) (fun _ _ => 3) (some 1) none).1.length
      = ((mkPopulationCentre 0 0 [mkPopulation 2] ⟨1, 7, 2, 0⟩ "bb"
        42).getTravelling (fun _ _ => 4) (fun _ _ => 3) (some 1) none).2.length) :=
  ⟨by decide,
   (claim_C9 (fun _ _ => 4) (fun _ _ => 3)
     (mkPopulationCentre 0 0 [mkPopulation 2] ⟨1, 7, 2, 0⟩ "bb" 42)
     (some 1) none (by decide)).1⟩

theorem maskFilter_cons (b : Bool) (x : α) (m : List Bool) (l : List α) :
    maskFilter (b :: m) (x :: l) = (if b then [x] else []) ++ maskFilter m l := by
  cases b <;> simp [maskFilter]

theorem maskFilter_map (f : α → β) : ∀ (mask : List Bool) (l : List α),
    maskFilter mask (l.map f) = (maskFilter mask l).map f
  | [], l => by simp [maskFilter]
  | _ :: _, [] => by simp [maskFilter]
  | b :: m, x :: l => by
    rw [List.map_cons, maskFilter_cons, maskFilter_cons, List.map_append,
      maskFilter_map f m l]
    cases b <;> simp

theorem maskIndices_cons (b : Bool) (m : List Bool) :
    maskIndices (b :: m)
      = (if b then [0] else []) ++ (maskIndices m).map Nat.succ := by
  unfold maskIndices
  show maskFilter (b :: m) (List.range (m.length + 1)) = _
  rw [List.range_succ_eq_map, maskFilter_cons, maskFilter_map]

theorem maskFilter_eq_map_getD (d : α) : ∀ (mask : List Bool) (xs : List α),
    xs.length = mask.length →
    maskFilter mask xs = (maskIndices mask).map (fun t => xs.getD t d)
  | [], [], _ => rfl
  | [], _ :: _, h => by simp at h
  | _ :: _, [], h => by simp at h
  | b :: m, x :: xs, h => by
    rw [maskFilter_cons, maskIndices_cons, List.map_append, List.map_map]
    have ih := maskFilter_eq_map_getD d m xs (by simpa using h)
    rw [ih]
    cases b <;> simp [Function.comp]

/-- Claim C7: the minimum-inhabitants filter removes the same index set — the
positions where the mask is false — from the demographic table rows and from
both axes of the migration matrix: the filtered table is the original rows at
the retained indices, the filtered matrix is square over exactly as many
indices as the table keeps rows, and its entry `(i, j)` is the original entry
at the corresponding retained indices. -/
theorem claim_C7 (rows : List MunicipalRow) (minInh : Int)
    (M : Fin (popMask rows minInh).length → Fin (popMask rows minInh).length → Int) :
    maskFilter (popMask rows minInh) rows
      = (maskIndices (popMask rows minInh)).map (fun t => rows.getD t ⟨0, 0⟩) ∧
    (maskFilter (popMask rows minInh) rows).length
      = (maskIndices (popMask rows minInh)).length ∧
    (∀ i j, filterMigration (popMask rows minInh) M i j
      = M (keptIdx (popMask rows minInh) i) (keptIdx (popMask rows minInh) j)) ∧
    (∀ i, (keptIdx (popMask rows minInh) i).val
      = (maskIndices (popMask rows minInh)).getD i 0) := by
  have hlen : rows.length = (popMask rows minInh).length := by
    simp [popMask]
  have h1 := maskFilter_eq_map_getD (⟨0, 0⟩ : MunicipalRow)
    (popMask rows minInh) rows hlen
  refine ⟨h1, ?_, fun i j => rfl, fun i => rfl⟩
  rw [h1, List.length_map]

end CoronaSim

